import Mathlib

/-! Shallow embedding of the realtime microphone-to-text streaming engine in
`src/agents/agent1-video-subtitle/studio/services/realtime.py`
(class `RealtimeTranscriber`).

Modelling conventions:
* Python `float` values (seconds, sample amplitudes, thresholds) are
  modelled as rationals (`ℚ`); the arithmetic performed by the engine is
  addition, multiplication, division and comparison only.
* An `AudioFrame` (one callback buffer, mono) is a `List ℚ` of samples.
* The external `faster_whisper` model (not part of this repository) is
  abstracted as a function `Model` from chunk audio to either an error
  message (a raised exception's text) or a list of `(start, end, text)`
  triples, exactly the shape `_model.transcribe` yields in the worker loop.
* The two `queue.Queue` objects are single-producer/single-consumer in the
  source; each is modelled as a `List` with `put` appending at the tail and
  `get_nowait` taking the head (FIFO).
* The thread objects are modelled by a count `threads` of spawned
  capture/worker thread pairs, and the `sounddevice` stream handle by a
  `Bool` (`stream = true` iff `self._stream` is not `None`).
-/

/-- The `RealtimeSegment` dataclass: `start`, `end`, `text` (realtime.py lines 26-30).
The Python field `end` is a Lean keyword, so it is called `stop` here. -/
structure RealtimeSegment where
  start : ℚ
  stop : ℚ
  text : String
deriving DecidableEq, Repr

/-- Constructor-time configuration of `RealtimeTranscriber.__init__`
(realtime.py lines 48-75): the fields the worker/stream loops read. -/
structure Config where
  sampleRate : ℕ
  chunkSeconds : ℚ
  energyThreshold : ℚ
deriving DecidableEq, Repr

/-- The external speech model: `transcribe` either raises (error text) or
returns finitely many `(start, end, text)` triples relative to the chunk. -/
def Model : Type := List ℚ → Except String (List (ℚ × ℚ × String))

/-- Mutable state of a `RealtimeTranscriber` instance:
`_processed_seconds`, `segments`, `_seg_q`, `_running`, `_stream`,
the spawned thread pairs, and the worker-local buffer `buf`. -/
structure RTState where
  processedSeconds : ℚ
  segments : List RealtimeSegment
  segQ : List RealtimeSegment
  running : Bool
  stream : Bool
  threads : ℕ
  buf : List (List ℚ)
deriving DecidableEq, Repr

/-- State right after `__init__` (realtime.py lines 91-93):
`_processed_seconds = 0.0`, empty `segments`, empty queues, not running,
no stream handle, no threads, empty worker buffer. -/
def initState : RTState :=
  { processedSeconds := 0
    segments := []
    segQ := []
    running := false
    stream := false
    threads := 0
    buf := [] }

/-- Computation `samples_needed = int(self.sample_rate * self.chunk_seconds)`
(realtime.py line 156).  Python `int()` truncates toward zero; for the
nonnegative product of a sample rate and a duration this is the floor. -/
def samplesNeeded (cfg : Config) : ℕ :=
  (⌊(cfg.sampleRate : ℚ) * cfg.chunkSeconds⌋).toNat

/-- Python `str.strip()`: remove leading and trailing whitespace. -/
def pyStrip (s : String) : String :=
  String.mk
    (((s.data.dropWhile Char.isWhitespace).reverse.dropWhile
        Char.isWhitespace).reverse)

/-- Mean of the squared samples, `np.mean(np.square(audio))`; `0` for an
empty buffer (matching the `if audio.size else 0.0` guard, since the code
compares `rms` and `rms = 0.0` there). -/
def meanSquare (audio : List ℚ) : ℚ :=
  (audio.map (fun x => x * x)).sum / (audio.length : ℚ)

/-- The RMS silence gate `rms < self.energy_threshold` (realtime.py
lines 173-174), with `rms = sqrt(mean(square(audio)))` (or `0.0` for an
empty buffer).  Since `rms ≥ 0`, the comparison `rms < t` holds iff
`0 < t` and `mean(square(audio)) < t²`; this rephrasing keeps the gate
inside ℚ (see `sqrt_lt_iff_sq_lt` below for the justification). -/
def isSilent (cfg : Config) (audio : List ℚ) : Bool :=
  decide (0 < cfg.energyThreshold ∧ meanSquare audio < cfg.energyThreshold ^ 2)

/-- The diagnostic Segment pushed when `transcribe` raises
(realtime.py line 197): start and end are the pre-chunk offset. -/
def warnSegment (offset : ℚ) (e : String) : RealtimeSegment :=
  { start := offset, stop := offset, text := "[WARN] 轉錄失敗：" ++ e }

/-- The synthetic Segment pushed when opening the input stream fails
(realtime.py line 152): `start=0.0, end=0.0`. -/
def streamFailSegment (e : String) : RealtimeSegment :=
  { start := 0, stop := 0, text := "[錯誤] 麥克風串流啟動失敗：" ++ e }

/-- The per-triple emission loop body (realtime.py lines 190-195):
for each returned triple, strip the text; skip it when empty; otherwise
build the Segment with the offset added to start and end, append it to
`self.segments` and put it on `self._seg_q`. -/
def pushTriples (offset : ℚ) (st : RTState) :
    List (ℚ × ℚ × String) → RTState
  | [] => st
  | t :: rest =>
      let txt := (pyStrip t.2.2)
      if txt.isEmpty then pushTriples offset st rest
      else
        let s : RealtimeSegment :=
          { start := t.1 + offset, stop := t.2.1 + offset, text := txt }
        pushTriples offset
          { st with segments := st.segments ++ [s], segQ := st.segQ ++ [s] }
          rest

/-- The Segments the loop of realtime.py lines 190-195 emits for one chunk:
one per returned triple whose stripped text is nonempty. -/
def emitsOf (offset : ℚ) (trs : List (ℚ × ℚ × String)) :
    List RealtimeSegment :=
  trs.filterMap (fun t =>
    if (pyStrip t.2.2).isEmpty then none
    else some { start := t.1 + offset, stop := t.2.1 + offset, text := (pyStrip t.2.2) })

/-- Processing of one full chunk by `_worker_loop` (realtime.py
lines 173-197): the RMS gate, the offset bookkeeping, the `transcribe`
call and its per-triple loop, and the `except` branch.  The second
component counts how many times `transcribe` was invoked for this chunk. -/
def processChunk (cfg : Config) (model : Model) (st : RTState)
    (audio : List ℚ) : RTState × ℕ :=
  if isSilent cfg audio then
    ({ st with processedSeconds := st.processedSeconds + cfg.chunkSeconds }, 0)
  else
    let offset := st.processedSeconds
    let st1 := { st with processedSeconds := offset + cfg.chunkSeconds }
    match model audio with
    | .error e => ({ st1 with segQ := st1.segQ ++ [warnSegment offset e] }, 1)
    | .ok trs => (pushTriples offset st1 trs, 1)

/-- The chunk accumulator of `_worker_loop` (realtime.py lines 161-171):
append the incoming frame to `buf`; if the buffered sample total is still
below `samples_needed`, keep buffering; otherwise flatten the whole buffer
into one contiguous chunk and clear the buffer list. -/
def feedFrame (cfg : Config) (buf : List (List ℚ)) (frame : List ℚ) :
    List (List ℚ) × Option (List ℚ) :=
  let buf1 := buf ++ [frame]
  let total := (buf1.map List.length).sum
  if total < samplesNeeded cfg then (buf1, none)
  else ([], some buf1.flatten)

/-- One iteration of `_worker_loop` for one frame taken off the audio
queue: accumulate, and on a full chunk run the gate/transcribe stage.
Second component: `transcribe` invocations during this iteration. -/
def workerStep (cfg : Config) (model : Model) (st : RTState)
    (frame : List ℚ) : RTState × ℕ :=
  match feedFrame cfg st.buf frame with
  | (buf1, none) => ({ st with buf := buf1 }, 0)
  | (_, some audio) => processChunk cfg model { st with buf := [] } audio

/-- Sequential processing of a list of full chunks, in order, as the worker
loop does (each full chunk goes through realtime.py lines 173-197 once). -/
def runChunks (cfg : Config) (model : Model) (st : RTState)
    (chunks : List (List ℚ)) : RTState :=
  chunks.foldl (fun s c => (processChunk cfg model s c).1) st

/-- Sequential processing of a list of frames by the worker loop. -/
def runFrames (cfg : Config) (model : Model) (st : RTState)
    (frames : List (List ℚ)) : RTState :=
  frames.foldl (fun s f => (workerStep cfg model s f).1) st

/-- What `_stream_loop` does when opening the input stream raises
(realtime.py lines 150-152): clear `_running` and put exactly one
synthetic Segment on the segment queue.  Nothing else is touched. -/
def streamOpenFail (st : RTState) (e : String) : RTState :=
  { st with running := false, segQ := st.segQ ++ [streamFailSegment e] }

/-- Method `start()` (realtime.py lines 97-106): return immediately if already
running; otherwise set `_running` and spawn one capture/worker pair.
(`self._t0 = time.time()` is wall-clock bookkeeping, not modelled.) -/
def start (st : RTState) : RTState :=
  if st.running then st
  else { st with running := true, threads := st.threads + 1 }

/-- Method `stop()` (realtime.py lines 108-115): clear `_running`, close the
stream if open, and set `self._stream = None`. -/
def stop (st : RTState) : RTState :=
  { st with running := false, stream := false }

/-- Method `get_segment_nowait()` (realtime.py lines 122-126): `get_nowait` on the
segment queue, `None` when empty; returns the drained value and the
resulting state. -/
def get_segment_nowait (st : RTState) : Option RealtimeSegment × RTState :=
  match st.segQ with
  | [] => (none, st)
  | s :: rest => (some s, { st with segQ := rest })

/-- Segments put on the segment queue while processing one full chunk:
none when silent, the diagnostic Segment when `transcribe` raises, and
the nonempty-text emissions otherwise. -/
def chunkEmits (cfg : Config) (model : Model) (offset : ℚ)
    (audio : List ℚ) : List RealtimeSegment :=
  if isSilent cfg audio then []
  else
    match model audio with
    | .error e => [warnSegment offset e]
    | .ok trs => emitsOf offset trs

/-- Segments appended to the in-memory `segments` log while processing one
full chunk: only successful transcriptions ever reach the log. -/
def chunkLogEmits (cfg : Config) (model : Model) (offset : ℚ)
    (audio : List ℚ) : List RealtimeSegment :=
  if isSilent cfg audio then []
  else
    match model audio with
    | .error _ => []
    | .ok trs => emitsOf offset trs

/-- Per-chunk queue emissions of a chunk sequence, with the offset advanced
by `chunk_seconds` between consecutive chunks. -/
def runEmits (cfg : Config) (model : Model) (offset : ℚ) :
    List (List ℚ) → List (List RealtimeSegment)
  | [] => []
  | c :: rest =>
      chunkEmits cfg model offset c ::
        runEmits cfg model (offset + cfg.chunkSeconds) rest

/-- Per-chunk log emissions of a chunk sequence. -/
def runLogEmits (cfg : Config) (model : Model) (offset : ℚ) :
    List (List ℚ) → List (List RealtimeSegment)
  | [] => []
  | c :: rest =>
      chunkLogEmits cfg model offset c ::
        runLogEmits cfg model (offset + cfg.chunkSeconds) rest

/-! Helper lemmas characterising the step functions. -/

/-- The per-triple loop appends exactly `emitsOf offset trs` to both the
`segments` log and the segment queue, and touches nothing else. -/
theorem pushTriples_eq (offset : ℚ) (st : RTState)
    (trs : List (ℚ × ℚ × String)) :
    pushTriples offset st trs =
      { st with segments := st.segments ++ emitsOf offset trs,
                segQ := st.segQ ++ emitsOf offset trs } := by
  induction trs generalizing st with
  | nil => simp [pushTriples, emitsOf]
  | cons t rest ih =>
      by_cases h : (pyStrip t.2.2).isEmpty
      · simp [pushTriples, emitsOf, h, ih]
      · simp [pushTriples, emitsOf, h, ih]

theorem processChunk_processedSeconds (cfg : Config) (model : Model)
    (st : RTState) (c : List ℚ) :
    ((processChunk cfg model st c).1).processedSeconds =
      st.processedSeconds + cfg.chunkSeconds := by
  unfold processChunk
  by_cases h : isSilent cfg c
  · simp [h]
  · cases hm : model c with
    | error e => simp [h, hm]
    | ok trs => simp [h, hm, pushTriples_eq]

theorem processChunk_segQ (cfg : Config) (model : Model)
    (st : RTState) (c : List ℚ) :
    ((processChunk cfg model st c).1).segQ =
      st.segQ ++ chunkEmits cfg model st.processedSeconds c := by
  unfold processChunk chunkEmits
  by_cases h : isSilent cfg c
  · simp [h]
  · cases hm : model c with
    | error e => simp [h, hm]
    | ok trs => simp [h, hm, pushTriples_eq]

theorem processChunk_segments (cfg : Config) (model : Model)
    (st : RTState) (c : List ℚ) :
    ((processChunk cfg model st c).1).segments =
      st.segments ++ chunkLogEmits cfg model st.processedSeconds c := by
  unfold processChunk chunkLogEmits
  by_cases h : isSilent cfg c
  · simp [h]
  · cases hm : model c with
    | error e => simp [h, hm]
    | ok trs => simp [h, hm, pushTriples_eq]

theorem processChunk_calls (cfg : Config) (model : Model)
    (st : RTState) (c : List ℚ) :
    (processChunk cfg model st c).2 = if isSilent cfg c then 0 else 1 := by
  unfold processChunk
  by_cases h : isSilent cfg c
  · simp [h]
  · cases hm : model c with
    | error e => simp [h, hm]
    | ok trs => simp [h, hm]

theorem runChunks_nil (cfg : Config) (model : Model) (st : RTState) :
    runChunks cfg model st [] = st := rfl

theorem runChunks_cons (cfg : Config) (model : Model) (st : RTState)
    (c : List ℚ) (rest : List (List ℚ)) :
    runChunks cfg model st (c :: rest) =
      runChunks cfg model ((processChunk cfg model st c).1) rest := rfl

theorem runChunks_append (cfg : Config) (model : Model) (st : RTState)
    (xs ys : List (List ℚ)) :
    runChunks cfg model st (xs ++ ys) =
      runChunks cfg model (runChunks cfg model st xs) ys := by
  simp [runChunks, List.foldl_append]

theorem runChunks_processedSeconds (cfg : Config) (model : Model)
    (st : RTState) (chunks : List (List ℚ)) :
    (runChunks cfg model st chunks).processedSeconds =
      st.processedSeconds + (chunks.length : ℚ) * cfg.chunkSeconds := by
  induction chunks generalizing st with
  | nil => simp [runChunks]
  | cons c rest ih =>
      rw [runChunks_cons, ih, processChunk_processedSeconds]
      push_cast [List.length_cons]
      ring

theorem runChunks_segQ (cfg : Config) (model : Model)
    (st : RTState) (chunks : List (List ℚ)) :
    (runChunks cfg model st chunks).segQ =
      st.segQ ++ (runEmits cfg model st.processedSeconds chunks).flatten := by
  induction chunks generalizing st with
  | nil => simp [runChunks, runEmits]
  | cons c rest ih =>
      rw [runChunks_cons, ih, processChunk_segQ, processChunk_processedSeconds,
        runEmits]
      simp

theorem runChunks_segments (cfg : Config) (model : Model)
    (st : RTState) (chunks : List (List ℚ)) :
    (runChunks cfg model st chunks).segments =
      st.segments ++
        (runLogEmits cfg model st.processedSeconds chunks).flatten := by
  induction chunks generalizing st with
  | nil => simp [runChunks, runLogEmits]
  | cons c rest ih =>
      rw [runChunks_cons, ih, processChunk_segments,
        processChunk_processedSeconds, runLogEmits]
      simp

/-- Justification for the ℚ-level phrasing of the RMS gate: for the
nonnegative real `sqrt`, `sqrt m < t` holds iff `0 < t` and `m < t ^ 2`,
so `isSilent` tests exactly `rms < energy_threshold`. -/
theorem sqrt_lt_iff_sq_lt (m t : ℝ) :
    Real.sqrt m < t ↔ (0 < t ∧ m < t ^ 2) := by
  constructor
  · intro h
    have ht : 0 < t := lt_of_le_of_lt (Real.sqrt_nonneg m) h
    exact ⟨ht, (Real.sqrt_lt' ht).1 h⟩
  · rintro ⟨ht, hm⟩
    exact (Real.sqrt_lt' ht).2 hm

/-- Relating the boolean gate to the real-valued RMS comparison of the
source, `sqrt(mean(square(audio))) < energy_threshold`. -/
theorem isSilent_iff_rms_lt (cfg : Config) (audio : List ℚ) :
    isSilent cfg audio = true ↔
      Real.sqrt ((meanSquare audio : ℚ) : ℝ) <
        ((cfg.energyThreshold : ℚ) : ℝ) := by
  rw [isSilent, decide_eq_true_iff, sqrt_lt_iff_sq_lt]
  constructor
  · rintro ⟨ht, hm⟩
    exact ⟨by exact_mod_cast ht, by exact_mod_cast hm⟩
  · rintro ⟨ht, hm⟩
    exact ⟨by exact_mod_cast ht, by exact_mod_cast hm⟩

/-! Concrete fixtures used by the witnesses and counterexamples. -/

/-- Test configuration: sample rate 4 Hz, 2-second chunks, RMS threshold
1/100 (so `samples_needed = 8`, silent iff mean square < 1/10000). -/
def cfgT : Config :=
  { sampleRate := 4, chunkSeconds := 2, energyThreshold := 1 / 100 }

/-- Test configuration for the accumulator: sample rate 2 Hz, 1-second
chunks, so `samples_needed = 2`. -/
def cfgC5 : Config :=
  { sampleRate := 2, chunkSeconds := 1, energyThreshold := 1 / 100 }

/-- Stub model returning one triple with nonempty text. -/
def modelT : Model := fun _ => .ok [(0, 1, "hi")]

/-- Stub model that always raises. -/
def modelErrT : Model := fun _ => .error "boom"

/-- Stub model returning one triple whose text strips to empty. -/
def modelBlankT : Model := fun _ => .ok [(0, 1, " ")]

/-- Claim C1: after any sequence of N fully processed chunks (any mix of
silent, voiced and failed), `_processed_seconds` equals exactly
`N × chunk_seconds`; it is advanced exactly once, by `chunk_seconds`, per
chunk, and (for nonnegative `chunk_seconds`) never decreases. -/
theorem C1_offset_accumulator (cfg : Config) (model : Model)
    (chunks : List (List ℚ)) :
    (runChunks cfg model initState chunks).processedSeconds =
      (chunks.length : ℚ) * cfg.chunkSeconds
    ∧ (∀ st c, ((processChunk cfg model st c).1).processedSeconds =
        st.processedSeconds + cfg.chunkSeconds)
    ∧ (0 ≤ cfg.chunkSeconds → ∀ st c,
        st.processedSeconds ≤
          ((processChunk cfg model st c).1).processedSeconds) := by
  refine ⟨?_, processChunk_processedSeconds cfg model, ?_⟩
  · rw [runChunks_processedSeconds]
    simp [initState]
  · intro h st c
    rw [processChunk_processedSeconds]
    linarith

/-- Witness for C1 at a concrete run: one voiced and one silent 2-second
chunk give offset 4, and one step never decreases the offset. -/
theorem C1_offset_accumulator_witness :
    (runChunks cfgT modelT initState [[1, 1], [0, 0]]).processedSeconds = 4
    ∧ initState.processedSeconds ≤
        ((processChunk cfgT modelT initState [1, 1]).1).processedSeconds := by
  constructor
  · rw [(C1_offset_accumulator cfgT modelT [[1, 1], [0, 0]]).1]
    norm_num [cfgT]
  · exact (C1_offset_accumulator cfgT modelT [[1, 1], [0, 0]]).2.2
      (by norm_num [cfgT]) initState [1, 1]

/-- Claim C2: a chunk the gate classifies silent (its RMS is strictly below
`energy_threshold`, see `isSilent_iff_rms_lt`) never reaches `transcribe`
(call count 0) and emits nothing, while the offset still advances by
`chunk_seconds`; a chunk at or above the threshold is transcribed exactly
once. -/
theorem C2_silence_gate (cfg : Config) (model : Model) (st : RTState)
    (audio : List ℚ) :
    (isSilent cfg audio = true →
      processChunk cfg model st audio =
        ({ st with processedSeconds := st.processedSeconds + cfg.chunkSeconds },
         0))
    ∧ (isSilent cfg audio = false →
        (processChunk cfg model st audio).2 = 1) := by
  constructor
  · intro h
    simp [processChunk, h]
  · intro h
    rw [processChunk_calls, h]
    simp

/-- Evaluation of the gate on the all-zero test chunk: silent. -/
theorem isSilentT_zero : isSilent cfgT [0, 0] = true := by
  rw [isSilent, decide_eq_true_iff]
  norm_num [meanSquare, cfgT]

/-- Evaluation of the gate on the all-ones test chunk: voiced. -/
theorem isSilentT_one : isSilent cfgT [1, 1] = false := by
  rw [isSilent, decide_eq_false_iff_not]
  norm_num [meanSquare, cfgT]

/-- Witness for C2: with the 1/100 threshold, the all-zero chunk is gated
out with the offset advanced, and the all-ones chunk is transcribed once. -/
theorem C2_silence_gate_witness :
    processChunk cfgT modelT initState [0, 0] =
      ({ initState with processedSeconds := 2 }, 0)
    ∧ (processChunk cfgT modelT initState [1, 1]).2 = 1 := by
  constructor
  · have h := (C2_silence_gate cfgT modelT initState [0, 0]).1 isSilentT_zero
    rw [h]
    norm_num [initState, cfgT]
  · exact (C2_silence_gate cfgT modelT initState [1, 1]).2 isSilentT_one

/-- Claim C7: when opening the input stream fails, the supervisor clears
the running flag and pushes exactly one synthetic Segment with
`start = 0`, `end = 0` and the failure text onto the segment queue;
every other piece of engine state is untouched. -/
theorem C7_stream_open_failure (st : RTState) (e : String) :
    (streamOpenFail st e).running = false
    ∧ (streamOpenFail st e).segQ =
        st.segQ ++
          [{ start := 0, stop := 0,
             text := "[錯誤] 麥克風串流啟動失敗：" ++ e }]
    ∧ (streamOpenFail st e).segments = st.segments
    ∧ (streamOpenFail st e).processedSeconds = st.processedSeconds
    ∧ (streamOpenFail st e).threads = st.threads
    ∧ (streamOpenFail st e).stream = st.stream
    ∧ (streamOpenFail st e).buf = st.buf := by
  refine ⟨rfl, rfl, rfl, rfl, rfl, rfl, rfl⟩

/-- Claim C9: the drain operation is total (hence never blocks): it yields
`none` exactly on an empty queue and otherwise the oldest enqueued Segment
(the head, since `put` appends at the tail), removing it and leaving all
other state untouched. -/
theorem C9_nonblocking_drain (st : RTState) :
    (get_segment_nowait st).1 = st.segQ.head?
    ∧ (get_segment_nowait st).2.segQ = st.segQ.tail
    ∧ (get_segment_nowait st).2.segments = st.segments
    ∧ (get_segment_nowait st).2.processedSeconds = st.processedSeconds
    ∧ (get_segment_nowait st).2.running = st.running
    ∧ (st.segQ = [] → get_segment_nowait st = (none, st))
    ∧ ∀ s rest, st.segQ = s :: rest →
        get_segment_nowait st = (some s, { st with segQ := rest }) := by
  rcases h : st.segQ with _ | ⟨s, rest⟩
  · refine ⟨?_, ?_, ?_, ?_, ?_, ?_, ?_⟩ <;>
      simp_all [get_segment_nowait]
  · refine ⟨?_, ?_, ?_, ?_, ?_, ?_, ?_⟩ <;>
      simp_all [get_segment_nowait]

/-- Witness for C9: draining a one-element queue returns that Segment and
empties the queue; draining the fresh state returns `none`. -/
theorem C9_nonblocking_drain_witness :
    get_segment_nowait initState = (none, initState)
    ∧ get_segment_nowait
        { initState with segQ := [warnSegment 0 "x"] } =
      (some (warnSegment 0 "x"), initState) := by
  constructor
  · exact (C9_nonblocking_drain initState).2.2.2.2.2.1 rfl
  · have h := (C9_nonblocking_drain
      { initState with segQ := [warnSegment 0 "x"] }).2.2.2.2.2.2
      (warnSegment 0 "x") [] rfl
    exact h

/-- Claim C3: if `transcribe` raises on chunk k (= the `pre.length + 1`-th
chunk), exactly one diagnostic Segment is pushed, with both start and end
equal to the pre-chunk offset `(k-1) × chunk_seconds`; the log is not
touched; the offset still advances to `k × chunk_seconds`; and the run
continues with the remaining chunks from the post-failure state. -/
theorem C3_failure_isolation (cfg : Config) (model : Model)
    (pre post : List (List ℚ)) (c : List ℚ) (e : String)
    (hsil : isSilent cfg c = false) (hfail : model c = .error e) :
    ((processChunk cfg model (runChunks cfg model initState pre) c).1).segQ =
      (runChunks cfg model initState pre).segQ ++
        [{ start := (pre.length : ℚ) * cfg.chunkSeconds,
           stop := (pre.length : ℚ) * cfg.chunkSeconds,
           text := "[WARN] 轉錄失敗：" ++ e }]
    ∧ ((processChunk cfg model
          (runChunks cfg model initState pre) c).1).segments =
        (runChunks cfg model initState pre).segments
    ∧ ((processChunk cfg model
          (runChunks cfg model initState pre) c).1).processedSeconds =
        ((pre.length : ℚ) + 1) * cfg.chunkSeconds
    ∧ runChunks cfg model initState (pre ++ c :: post) =
        runChunks cfg model
          ((processChunk cfg model
            (runChunks cfg model initState pre) c).1) post := by
  have hoff : (runChunks cfg model initState pre).processedSeconds =
      (pre.length : ℚ) * cfg.chunkSeconds := by
    rw [runChunks_processedSeconds]
    simp [initState]
  refine ⟨?_, ?_, ?_, ?_⟩
  · rw [processChunk_segQ]
    simp [chunkEmits, hsil, hfail, warnSegment, hoff]
  · rw [processChunk_segments]
    simp [chunkLogEmits, hsil, hfail]
  · rw [processChunk_processedSeconds, hoff]
    ring
  · rw [runChunks_append, runChunks_cons]

/-- Witness for C3: with a model that raises on every chunk, failure on the
second chunk (after one voiced chunk) pushes one diagnostic Segment at
offset 2, keeps the log unchanged, and advances the offset to 4. -/
theorem C3_failure_isolation_witness :
    ((processChunk cfgT modelErrT
        (runChunks cfgT modelErrT initState [[1, 1]]) [1, 1]).1).segQ =
      (runChunks cfgT modelErrT initState [[1, 1]]).segQ ++
        [{ start := (2 : ℚ), stop := (2 : ℚ),
           text := "[WARN] 轉錄失敗：" ++ "boom" }]
    ∧ ((processChunk cfgT modelErrT
          (runChunks cfgT modelErrT initState [[1, 1]]) [1, 1]).1).processedSeconds
        = 4 := by
  have h := C3_failure_isolation cfgT modelErrT [[1, 1]] [] [1, 1] "boom"
    isSilentT_one rfl
  constructor
  · have h1 := h.1
    norm_num [cfgT] at h1 ⊢
    exact h1
  · have h3 := h.2.2.1
    norm_num [cfgT] at h3 ⊢
    exact h3

/-- Start bound for the Segments one chunk pushes onto the queue: provided
the model's chunk-relative start times lie in `[0, chunk_seconds)` and
`chunk_seconds > 0`, every pushed Segment (diagnostic ones included) has
`offset ≤ start < offset + chunk_seconds`. -/
theorem chunkEmits_start_bound (cfg : Config) (model : Model)
    (offset : ℚ) (c : List ℚ)
    (hcs : 0 < cfg.chunkSeconds)
    (hmodel : ∀ trs, model c = .ok trs →
      ∀ x ∈ trs, 0 ≤ x.1 ∧ x.1 < cfg.chunkSeconds) :
    ∀ seg ∈ chunkEmits cfg model offset c,
      offset ≤ seg.start ∧ seg.start < offset + cfg.chunkSeconds := by
  intro seg hseg
  unfold chunkEmits at hseg
  by_cases h : isSilent cfg c
  · simp [h] at hseg
  · rw [if_neg h] at hseg
    cases hm : model c with
    | error e =>
        rw [hm] at hseg
        simp [warnSegment] at hseg
        subst hseg
        simp [warnSegment]
        exact hcs
    | ok trs =>
        rw [hm] at hseg
        rcases List.mem_filterMap.1 hseg with ⟨t, ht, heq⟩
        by_cases he : (pyStrip t.2.2).isEmpty
        · simp [he] at heq
        · simp only [he, if_false] at heq
          have hb := hmodel trs hm t ht
          cases heq
          constructor
          · show offset ≤ t.1 + offset
            linarith [hb.1]
          · show t.1 + offset < offset + cfg.chunkSeconds
            linarith [hb.2]

/-- Start bound for the k-th (0-based) per-chunk emission list: Segments of
the chunk processed at running offset `offset + k × chunk_seconds` have
their start inside that chunk's window. -/
theorem runEmits_getD_bound (cfg : Config) (model : Model)
    (hcs : 0 < cfg.chunkSeconds)
    (hmodel : ∀ a trs, model a = .ok trs →
      ∀ x ∈ trs, 0 ≤ x.1 ∧ x.1 < cfg.chunkSeconds) :
    ∀ (chunks : List (List ℚ)) (offset : ℚ) (k : ℕ),
      ∀ seg ∈ (runEmits cfg model offset chunks).getD k [],
        offset + (k : ℚ) * cfg.chunkSeconds ≤ seg.start ∧
          seg.start <
            offset + (k : ℚ) * cfg.chunkSeconds + cfg.chunkSeconds := by
  intro chunks
  induction chunks with
  | nil =>
      intro offset k seg hseg
      simp [runEmits] at hseg
  | cons c rest ih =>
      intro offset k seg hseg
      cases k with
      | zero =>
          rw [runEmits] at hseg
          rw [List.getD_cons_zero] at hseg
          have hb := chunkEmits_start_bound cfg model offset c hcs
            (fun trs h => hmodel c trs h) seg hseg
          constructor
          · have := hb.1
            push_cast
            linarith
          · have := hb.2
            push_cast
            linarith
      | succ k =>
          rw [runEmits] at hseg
          rw [List.getD_cons_succ] at hseg
          have h2 := ih (offset + cfg.chunkSeconds) k seg hseg
          have e1 : offset + ((k + 1 : ℕ) : ℚ) * cfg.chunkSeconds =
              offset + cfg.chunkSeconds + (k : ℚ) * cfg.chunkSeconds := by
            push_cast
            ring
          constructor
          · rw [e1]
            exact h2.1
          · rw [e1]
            exact h2.2

/-- Claim C4: in a run over chunks `C1..Cn`, the segment queue is exactly
the concatenation, in chunk order, of the per-chunk emission lists (so
every Segment of `Ck` is enqueued strictly before any Segment of `Ck+1`),
and — provided `chunk_seconds > 0` and the model returns chunk-relative
start times in `[0, chunk_seconds)` — every Segment emitted for `Ck` has
`offset(Ck) ≤ start < offset(Ck) + chunk_seconds`. -/
theorem C4_segment_ordering (cfg : Config) (model : Model)
    (chunks : List (List ℚ))
    (hcs : 0 < cfg.chunkSeconds)
    (hmodel : ∀ a trs, model a = .ok trs →
      ∀ x ∈ trs, 0 ≤ x.1 ∧ x.1 < cfg.chunkSeconds) :
    (runChunks cfg model initState chunks).segQ =
      (runEmits cfg model 0 chunks).flatten
    ∧ ∀ k, ∀ seg ∈ (runEmits cfg model 0 chunks).getD k [],
        (k : ℚ) * cfg.chunkSeconds ≤ seg.start ∧
          seg.start < (k : ℚ) * cfg.chunkSeconds + cfg.chunkSeconds := by
  constructor
  · rw [runChunks_segQ]
    simp [initState]
  · intro k seg hseg
    have h := runEmits_getD_bound cfg model hcs hmodel chunks 0 k seg hseg
    constructor
    · linarith [h.1]
    · linarith [h.2]

/-- Witness for C4 at a concrete run of two voiced chunks with the stub
model (start time 0, inside `[0, 2)`). -/
theorem C4_segment_ordering_witness :
    (runChunks cfgT modelT initState [[1, 1], [1, 1]]).segQ =
      (runEmits cfgT modelT 0 [[1, 1], [1, 1]]).flatten := by
  refine (C4_segment_ordering cfgT modelT [[1, 1], [1, 1]] ?_ ?_).1
  · norm_num [cfgT]
  · intro a trs h x hx
    have htrs : trs = [(0, 1, "hi")] := by
      simpa [modelT] using h.symm
    subst htrs
    simp at hx
    subst hx
    norm_num [cfgT]

/-- Evaluation: the accumulator threshold for `cfgC5` is 2 samples. -/
theorem samplesNeeded_cfgC5 : samplesNeeded cfgC5 = 2 := by
  norm_num [samplesNeeded, cfgC5]
  rfl

/-- Counterexample to C5: with `samples_needed = 2`, a buffered 1-sample
frame followed by a 2-sample frame produces a submitted chunk of 3
samples — the whole buffer is flattened, not exactly
`chunk_seconds × sample_rate` samples. -/
theorem C5_counterexample :
    feedFrame cfgC5 [] [0] = ([[0]], none)
    ∧ feedFrame cfgC5 [[0]] [0, 0] = ([], some [0, 0, 0])
    ∧ ((feedFrame cfgC5 [[0]] [0, 0]).2.getD []).length ≠
        samplesNeeded cfgC5 := by
  refine ⟨?_, ?_, ?_⟩ <;> simp [feedFrame, samplesNeeded_cfgC5]

/-- Claim C5 as amended: the accumulator buffers frames while the total
sample count is below the configured chunk size; once the total reaches
it, the entire buffer (which may exceed the chunk size, and equals it only
when the last frame lands exactly on the boundary) is flattened into one
contiguous chunk and the buffer list is cleared, so every submitted chunk
has at least `samples_needed` samples — exactly the buffered total. -/
theorem C5_amended (cfg : Config) (buf : List (List ℚ)) (frame : List ℚ) :
    (((buf ++ [frame]).map List.length).sum < samplesNeeded cfg →
      feedFrame cfg buf frame = (buf ++ [frame], none))
    ∧ (samplesNeeded cfg ≤ ((buf ++ [frame]).map List.length).sum →
      feedFrame cfg buf frame = ([], some (buf ++ [frame]).flatten)
      ∧ ((buf ++ [frame]).flatten).length =
          ((buf ++ [frame]).map List.length).sum
      ∧ samplesNeeded cfg ≤ ((buf ++ [frame]).flatten).length) := by
  constructor
  · intro h
    simp only [feedFrame]
    rw [if_pos h]
  · intro h
    refine ⟨?_, List.length_flatten _, ?_⟩
    · simp only [feedFrame]
      rw [if_neg (Nat.not_lt.2 h)]
    · rw [List.length_flatten]
      exact h

/-- Witness for the amended C5: the 3-sample overshoot case is submitted
whole, clearing the buffer, with 3 ≥ samples_needed = 2. -/
theorem C5_amended_witness :
    feedFrame cfgC5 [[0]] [0, 0] = ([], some [0, 0, 0])
    ∧ samplesNeeded cfgC5 ≤ ([0, 0, 0] : List ℚ).length := by
  have h := (C5_amended cfgC5 [[0]] [0, 0]).2
    (by simp [samplesNeeded_cfgC5])
  constructor
  · exact h.1
  · exact h.2.2

/-- Counterexample to C6: a voiced chunk for which the model returns one
triple whose text strips to empty emits no Segment at all — the returned
triple count (one) does not match the emitted Segment count (zero). -/
theorem C6_counterexample :
    modelBlankT [1, 1] = .ok [(0, 1, " ")]
    ∧ ((processChunk cfgT modelBlankT initState [1, 1]).1).segQ = []
    ∧ ((processChunk cfgT modelBlankT initState [1, 1]).1).segments = [] := by
  have hb : (pyStrip " ").isEmpty = true := by decide
  refine ⟨rfl, ?_, ?_⟩
  · rw [processChunk_segQ]
    simp [chunkEmits, isSilentT_one, modelBlankT, emitsOf, hb, initState]
  · rw [processChunk_segments]
    simp [chunkLogEmits, isSilentT_one, modelBlankT, emitsOf, hb, initState]

/-- Counting helper: the emissions of one chunk are exactly one Segment
per triple whose stripped text is nonempty. -/
theorem emitsOf_length (offset : ℚ) (trs : List (ℚ × ℚ × String)) :
    (emitsOf offset trs).length =
      (trs.filter (fun t => !(pyStrip t.2.2).isEmpty)).length := by
  induction trs with
  | nil => rfl
  | cons t rest ih =>
      by_cases h : (pyStrip t.2.2).isEmpty
      · simpa [emitsOf, List.filterMap_cons, List.filter_cons, h] using ih
      · simpa [emitsOf, List.filterMap_cons, List.filter_cons, h] using ih

/-- Claim C6 as amended: for a voiced chunk with a successful model call,
each returned triple whose STRIPPED text is nonempty yields exactly one
Segment (pre-chunk offset added to both start and end, appended to the
log and pushed to the queue, in return order); triples whose text strips
to empty are skipped and yield no Segment. -/
theorem C6_amended (cfg : Config) (model : Model) (st : RTState)
    (audio : List ℚ) (trs : List (ℚ × ℚ × String))
    (hsil : isSilent cfg audio = false) (hok : model audio = .ok trs) :
    ((processChunk cfg model st audio).1).segments =
      st.segments ++ emitsOf st.processedSeconds trs
    ∧ ((processChunk cfg model st audio).1).segQ =
        st.segQ ++ emitsOf st.processedSeconds trs
    ∧ (emitsOf st.processedSeconds trs).length =
        (trs.filter (fun t => !(pyStrip t.2.2).isEmpty)).length
    ∧ ∀ t ∈ trs, (pyStrip t.2.2).isEmpty = false →
        { start := t.1 + st.processedSeconds,
          stop := t.2.1 + st.processedSeconds,
          text := pyStrip t.2.2 } ∈ emitsOf st.processedSeconds trs := by
  refine ⟨?_, ?_, emitsOf_length _ _, ?_⟩
  · rw [processChunk_segments]
    simp [chunkLogEmits, hsil, hok]
  · rw [processChunk_segQ]
    simp [chunkEmits, hsil, hok]
  · intro t ht he
    exact List.mem_filterMap.2 ⟨t, ht, by simp [he]⟩

/-- Witness for the amended C6: the stub model's single nonempty triple
yields exactly one Segment in both the queue and the log. -/
theorem C6_amended_witness :
    ((processChunk cfgT modelT initState [1, 1]).1).segQ =
      [{ start := 0, stop := 1, text := "hi" }]
    ∧ ((processChunk cfgT modelT initState [1, 1]).1).segments =
      [{ start := 0, stop := 1, text := "hi" }] := by
  have hne : (pyStrip "hi").isEmpty = false := by decide
  have hstr : pyStrip "hi" = "hi" := by decide
  have hie : ("hi").isEmpty = false := by decide
  have h := C6_amended cfgT modelT initState [1, 1] [(0, 1, "hi")]
    isSilentT_one rfl
  constructor
  · rw [h.2.1]
    simp [emitsOf, List.filterMap_cons, hne, hstr, hie, initState]
  · rw [h.1]
    simp [emitsOf, List.filterMap_cons, hne, hstr, hie, initState]

/-- Claim C8: `start()` while already running is a no-op (so a started
engine keeps exactly one spawned capture/worker pair), and `stop()` while
not running with no stream handle leaves the state unchanged. -/
theorem C8_lifecycle (st : RTState) :
    (st.running = true → start st = st)
    ∧ (start (start initState) = start initState
        ∧ (start initState).threads = 1)
    ∧ (st.running = false → st.stream = false → stop st = st) := by
  refine ⟨?_, ⟨?_, ?_⟩, ?_⟩
  · intro h
    simp [start, h]
  · simp [start, initState]
  · simp [start, initState]
  · intro h1 h2
    cases st
    simp_all [stop]

/-- Witness for C8 at concrete states: a second `start` on a running
one-pair state is the identity, and `stop` on the fresh state is too. -/
theorem C8_lifecycle_witness :
    start { initState with running := true, threads := 1 } =
      { initState with running := true, threads := 1 }
    ∧ stop initState = initState := by
  constructor
  · exact (C8_lifecycle { initState with running := true, threads := 1 }).1 rfl
  · exact (C8_lifecycle initState).2.2 rfl rfl

/-- Claim C10: the in-memory log after any run holds exactly the
successfully transcribed Segments in emission order (`runLogEmits` takes
only `.ok` model results): a model-failure chunk pushes its diagnostic
Segment to the queue but leaves the log untouched, and a stream-open
failure pushes its synthetic Segment without touching the log either. -/
theorem C10_log_purity (cfg : Config) (model : Model)
    (chunks : List (List ℚ)) (e : String) :
    (streamOpenFail (runChunks cfg model initState chunks) e).segments =
      (runLogEmits cfg model 0 chunks).flatten
    ∧ (∀ st c err, isSilent cfg c = false → model c = .error err →
        ((processChunk cfg model st c).1).segments = st.segments
        ∧ ((processChunk cfg model st c).1).segQ =
            st.segQ ++ [warnSegment st.processedSeconds err])
    ∧ (∀ st : RTState, (streamOpenFail st e).segments = st.segments) := by
  refine ⟨?_, ?_, fun st => rfl⟩
  · show (runChunks cfg model initState chunks).segments =
      (runLogEmits cfg model 0 chunks).flatten
    rw [runChunks_segments]
    simp [initState]
  · intro st c err h1 h2
    constructor
    · rw [processChunk_segments]
      simp [chunkLogEmits, h1, h2]
    · rw [processChunk_segQ]
      simp [chunkEmits, h1, h2]

/-- Witness for C10: a failing model call on a voiced chunk leaves the log
empty while the diagnostic Segment reaches the queue. -/
theorem C10_log_purity_witness :
    ((processChunk cfgT modelErrT initState [1, 1]).1).segments = []
    ∧ ((processChunk cfgT modelErrT initState [1, 1]).1).segQ =
        [warnSegment 0 "boom"] := by
  have h := (C10_log_purity cfgT modelErrT [] "x").2.1 initState [1, 1]
    "boom" isSilentT_one rfl
  constructor
  · simpa [initState] using h.1
  · simpa [initState] using h.2
